import Mathlib

/-!
Verification of the reverse-proxy tunneling broker and agent.

Shallow embedding of the Go sources:
- `cmd/server/main.go`: the `tunnels` registry map, `handleRegister`,
  `handleTunnel`, `handleHTTP`, `isValidSubdomain`.
- `cmd/agent/main.go`: the registration loop, the connect-phase backoff
  (`increaseDelay`), `handleConnection`, `forwardTraffic`.

The registry is modelled as an association list from subdomain to the
stored target URL string; HTTP handlers are modelled as pure functions
from their request data (and the outcomes of the I/O actions they
perform) to status codes, bodies, updated registry state, or event
traces.
-/

namespace Tunnel

/-! ### Server: subdomain validation (`isValidSubdomain`, server main.go lines 192-196) -/

/-- The predicate passed to `strings.IndexFunc` in `isValidSubdomain`:
true on a rune that is NOT a lowercase letter, digit, or hyphen. -/
def subdomainRuneBad (r : Char) : Bool :=
  !((decide ('a' ≤ r) && decide (r ≤ 'z') || decide ('0' ≤ r) && decide (r ≤ '9')) || r == '-')

/-- Model of `strings.IndexFunc`: index of the first character satisfying
`f`, or `-1` when none does (only the `-1` comparison is used below, so
char-index versus byte-index does not matter). -/
def indexFunc (s : String) (f : Char → Bool) : Int :=
  match s.data.findIdx? f with
  | none => -1
  | some i => (i : Int)

/-- `isValidSubdomain` from server main.go: non-empty and no character
outside `[a-z0-9-]`. -/
def isValidSubdomain (subdomain : String) : Bool :=
  decide (0 < subdomain.length) && (indexFunc subdomain subdomainRuneBad == -1)

/-! ### Agent: connect-phase backoff (`increaseDelay`, agent main.go lines 184-190) -/

/-- `increaseDelay` from agent main.go: double the delay, clamped at `max`. -/
def increaseDelay (currentDelay max : Nat) : Nat :=
  let next := currentDelay * 2
  if next > max then max else next

/-- The agent's initial/floor retry delay (`retryDelay := 2 * time.Second`),
in seconds. -/
def retryDelayFloor : Nat := 2

/-- The agent's backoff ceiling (`maxRetryDelay := 60 * time.Second`), in seconds. -/
def maxRetryDelay : Nat := 60

/-- One step of the connect loop's delay update: a successful dial resets
the delay to the floor (agent main.go line 99); a failed dial applies
`increaseDelay` (line 94). -/
def nextRetryDelay (connectOk : Bool) (retryDelay : Nat) : Nat :=
  if connectOk then retryDelayFloor else increaseDelay retryDelay maxRetryDelay

/-- The retry delay after processing a history of connect outcomes
(most recent outcome first); the empty history gives the initial delay. -/
def delayTrace : List Bool → Nat
  | [] => retryDelayFloor
  | outcome :: rest => nextRetryDelay outcome (delayTrace rest)

/-! ### Relay: per-chunk copy loop (server main.go lines 119-131, agent main.go lines 143-162) -/

/-- The relay's fixed transfer-buffer size: `buf := make([]byte, 1024)`. -/
def transferBufferSize : Nat := 1024

/-- The read side of the relay's copy loop: repeatedly read up to
`transferBufferSize` bytes from the stream and emit each read as one
chunk (one `WriteMessage` per read). -/
def readChunks : List UInt8 → List (List UInt8)
  | [] => []
  | b :: bs =>
    (b :: bs).take transferBufferSize :: readChunks ((b :: bs).drop transferBufferSize)
termination_by l => l.length
decreasing_by
  simp [List.length_drop, transferBufferSize]
  omega

/-- The write side of the opposite relay loop: each received message is
written verbatim to the destination stream, so the delivered byte
sequence is the concatenation of the chunks. -/
def writeAll (msgs : List (List UInt8)) : List UInt8 :=
  msgs.flatten

/-! ### Server: registry and registration (server main.go lines 18-36, 152-189) -/

/-- The broker's static shared secret, compared byte-for-byte. -/
def apiSecret : String := "test123"

/-- The decoded JSON body of a `POST /register` request. -/
structure RegistrationRequest where
  subdomain : String
  target_port : String
  api_key : String
deriving DecidableEq

/-- The `tunnels` map, modelled as an association list from subdomain to
the stored target URL string. -/
abbrev Registry := List (String × String)

/-- The state of `tunnels` after `main` pre-seeds the default entry
(`tunnels["test"], _ = url.Parse("http://localhost:80")`, line 36). -/
def initialTunnels : Registry := [("test", "http://localhost:80")]

/-- `handleRegister` from server main.go. Input: the decoded body (`none`
models a JSON decode failure) and the current registry. Output: the HTTP
status code, the response body, and the updated registry. -/
def handleRegister (body : Option RegistrationRequest) (tunnels : Registry) :
    Nat × Option String × Registry :=
  match body with
  | none => (400, some "Invalid request", tunnels)
  | some req =>
    if req.api_key ≠ apiSecret then
      (401, some "Unauthorized", tunnels)
    else if isValidSubdomain req.subdomain = false then
      (400, some "Invalid subdomain", tunnels)
    else if (tunnels.lookup req.subdomain).isSome then
      (409, some "Subdomain already registered", tunnels)
    else
      (201, some "Registered Successfully",
        (req.subdomain, "http://localhost:" ++ req.target_port) :: tunnels)

/-- The registry after a sequence of `POST /register` exchanges applied
to a starting state. -/
def runRegisters : List (Option RegistrationRequest) → Registry → Registry
  | [], st => st
  | c :: cs, st => runRegisters cs (handleRegister c st).2.2

/-- A broker registry state reachable from startup by register exchanges. -/
def ReachableReg (st : Registry) : Prop :=
  ∃ calls, st = runRegisters calls initialTunnels

/-! ### Server: reverse dispatcher (`handleHTTP`, server main.go lines 134-150) -/

/-- Model of `strings.Split` on a single-character separator. -/
def splitOnChar (sep : Char) : List Char → List (List Char)
  | [] => [[]]
  | c :: cs =>
    if c = sep then [] :: splitOnChar sep cs
    else
      match splitOnChar sep cs with
      | [] => [[c]]
      | h :: t => (c :: h) :: t

/-- The dispatcher's routing key: `strings.Split(r.Host, ".")[0]`. -/
def hostKey (host : String) : String :=
  String.mk ((splitOnChar '.' host.data).headD [])

/-- Outcome of the reverse dispatcher on one inbound public request. -/
inductive DispatchResult where
  | notFound
  | proxyTo (target : String)
deriving DecidableEq

/-- `handleHTTP` from server main.go: look up the routing key extracted
from the Host header; a miss is a 404 ("Tunnel not found"); a hit
forwards the request via a single-host reverse proxy to the target. -/
def handleHTTP (host : String) (tunnels : Registry) : DispatchResult :=
  match tunnels.lookup (hostKey host) with
  | none => .notFound
  | some target => .proxyTo target

/-! ### Server: control-channel handshake (`handleTunnel`, server main.go lines 63-132) -/

/-- Host part of a stored target URL (Go's `target.Host` for a URL of the
form `http://host:port`): the scheme prefix is stripped. -/
def urlHost (u : String) : String :=
  if u.data.take 7 = "http://".data then String.mk (u.data.drop 7) else u

/-- The protocol-visible actions of `handleTunnel`, in order. -/
inductive TunnelEvent where
  | errorResp (status : Nat) (msg : String)
  | upgrade
  | dial (hostAddr : String)
  | relay
deriving DecidableEq

/-- `handleTunnel` from server main.go as the ordered trace of its
protocol-visible actions. `upgradeOk` and `dialOk` are the outcomes of
the WebSocket upgrade and of `net.Dial("tcp", target.Host)`. -/
def handleTunnel (apiKey subdomain : String) (tunnels : Registry)
    (upgradeOk dialOk : Bool) : List TunnelEvent :=
  if apiKey ≠ apiSecret then
    [.errorResp 401 "Unauthorized"]
  else if upgradeOk = false then
    []
  else
    .upgrade ::
      (match tunnels.lookup subdomain with
       | none => [.errorResp 404 "Tunnel not registered"]
       | some target =>
         if dialOk = false then
           [.dial (urlHost target), .errorResp 502 "Target service unavailable"]
         else
           [.dial (urlHost target), .relay])

/-! ### Agent: registration loop and error handling (agent main.go lines 21-137, 139-182) -/

/-- The process-visible outcome of one iteration of an agent loop. -/
inductive AgentStep where
  | exitProcess
  | retryAfterSleep
  | renameAndRetry
  | registered
deriving DecidableEq

/-- One iteration of the agent's registration loop (agent main.go lines
33-70): `json.Marshal` failure is fatal (`log.Fatalf`, line 43); a
transport failure sleeps 5 seconds and retries (lines 48-52); status 201
breaks out as registered (line 58); status 409 picks a renamed subdomain
and retries (lines 63-67); any other response is fatal (`log.Fatalf`,
line 69). -/
def registrationAttempt (marshalOk transportOk : Bool) (statusCode : Nat) : AgentStep :=
  if marshalOk = false then .exitProcess
  else if transportOk = false then .retryAfterSleep
  else if statusCode = 201 then .registered
  else if statusCode = 409 then .renameAndRetry
  else .exitProcess

/-- The outcome of one connect attempt in the agent's session loop. -/
inductive ConnectStep where
  | exitProcess
  | retryWithBackoff
  | active
deriving DecidableEq

/-- One connect attempt (agent main.go lines 88-96): a failed dial only
logs, sleeps, and retries with backoff; it never exits the process. -/
def connectAttempt (dialOk : Bool) : ConnectStep :=
  if dialOk then .active else .retryWithBackoff

/-- The outcome of starting the agent's local listener. -/
inductive ListenStep where
  | exitProcess
  | listening
deriving DecidableEq

/-- Starting the local listener (`handleConnection`, agent main.go lines
116-121): a bind failure calls `log.Fatalf` and terminates the process. -/
def startLocalListener (bindOk : Bool) : ListenStep :=
  if bindOk then .listening else .exitProcess

/-- The outcome of one iteration of a `forwardTraffic` direction. -/
inductive RelayStep where
  | exitProcess
  | stopRelay
  | continueRelay
deriving DecidableEq

/-- One iteration of a `forwardTraffic` direction (agent main.go lines
143-181): any read or write error stops that relay direction by
returning from it; it never exits the process. -/
def forwardStep (readOk writeOk : Bool) : RelayStep :=
  if readOk = false then .stopRelay
  else if writeOk = false then .stopRelay
  else .continueRelay

/-! ### Validator lemmas -/

theorem subdomainRuneBad_eq_false_iff (c : Char) :
    subdomainRuneBad c = false ↔
      (('a' ≤ c ∧ c ≤ 'z') ∨ ('0' ≤ c ∧ c ≤ '9') ∨ c = '-') := by
  unfold subdomainRuneBad
  rw [Bool.not_eq_false']
  simp only [Bool.or_eq_true, Bool.and_eq_true, decide_eq_true_iff, beq_iff_eq]
  exact or_assoc

theorem isValidSubdomain_iff (s : String) :
    isValidSubdomain s = true ↔
      (s ≠ "" ∧ ∀ c ∈ s.data,
        ('a' ≤ c ∧ c ≤ 'z') ∨ ('0' ≤ c ∧ c ≤ '9') ∨ c = '-') := by
  unfold isValidSubdomain indexFunc
  rw [Bool.and_eq_true]
  constructor
  · rintro ⟨hlen, hidx⟩
    rw [decide_eq_true_iff] at hlen
    constructor
    · intro hs
      subst hs
      simp [String.length] at hlen
    · intro c hc
      cases hfind : s.data.findIdx? subdomainRuneBad with
      | none =>
        exact (subdomainRuneBad_eq_false_iff c).mp
          (List.findIdx?_eq_none_iff.mp hfind c hc)
      | some i =>
        rw [hfind] at hidx
        simp only [beq_iff_eq] at hidx
        omega
  · rintro ⟨hne, hall⟩
    have hdata : s.data ≠ [] := by
      intro h
      exact hne (String.ext h)
    refine ⟨?_, ?_⟩
    · rw [decide_eq_true_iff]
      show 0 < s.data.length
      exact List.length_pos.mpr hdata
    · have hfind : s.data.findIdx? subdomainRuneBad = none :=
        List.findIdx?_eq_none_iff.mpr fun c hc =>
          (subdomainRuneBad_eq_false_iff c).mpr (hall c hc)
      rw [hfind]
      rfl

/-! ### Claim theorem: subdomain validator (C9) -/

/-- C9: the subdomain validator accepts a string iff it is non-empty and
every character is a lowercase letter, digit, or hyphen; it accepts
"my-app1" and rejects "", "My-App", "my_app", "a b". -/
theorem validator_characterization :
    (∀ s : String, isValidSubdomain s = true ↔
      (s ≠ "" ∧ ∀ c ∈ s.data,
        ('a' ≤ c ∧ c ≤ 'z') ∨ ('0' ≤ c ∧ c ≤ '9') ∨ c = '-')) ∧
    isValidSubdomain "my-app1" = true ∧
    isValidSubdomain "" = false ∧
    isValidSubdomain "My-App" = false ∧
    isValidSubdomain "my_app" = false ∧
    isValidSubdomain "a b" = false :=
  ⟨isValidSubdomain_iff, by decide, by decide, by decide, by decide, by decide⟩

/-- C9 witness: the characterization applied at the concrete string "my-app1". -/
theorem validator_characterization_witness :
    isValidSubdomain "my-app1" = true :=
  validator_characterization.2.1

/-! ### Relay lemmas -/

theorem readChunks_flatten (bs : List UInt8) : (readChunks bs).flatten = bs := by
  match bs with
  | [] => simp [readChunks]
  | b :: bs =>
    rw [readChunks, List.flatten_cons,
        readChunks_flatten ((b :: bs).drop transferBufferSize)]
    exact List.take_append_drop _ _
termination_by bs.length
decreasing_by
  simp [List.length_drop, transferBufferSize]
  omega

theorem readChunks_chunk_bound (bs : List UInt8) :
    ∀ c ∈ readChunks bs, c ≠ [] ∧ c.length ≤ transferBufferSize := by
  match bs with
  | [] => intro c hc; simp [readChunks] at hc
  | b :: bs =>
    intro c hc
    rw [readChunks] at hc
    rcases List.mem_cons.mp hc with h | h
    · subst h
      refine ⟨?_, List.length_take_le _ _⟩
      simp [transferBufferSize]
    · exact readChunks_chunk_bound ((b :: bs).drop transferBufferSize) c h
termination_by bs.length
decreasing_by
  simp [List.length_drop, transferBufferSize]
  omega

theorem readChunks_small (b : UInt8) (bs : List UInt8)
    (hle : (b :: bs).length ≤ transferBufferSize) :
    readChunks (b :: bs) = [b :: bs] := by
  rw [readChunks, List.take_of_length_le hle, List.drop_of_length_le hle]
  rw [readChunks]

/-! ### Claim theorem: relay byte preservation (C3) -/

/-- C3: the concatenation of the chunks delivered by the relay's
read-then-write loop equals the input byte sequence, unmodified and in
order, for every payload; moreover each delivered chunk is non-empty
and at most the transfer-buffer size (1024 bytes). -/
theorem relay_chunks_preserve_stream (payload : List UInt8) :
    writeAll (readChunks payload) = payload ∧
    ∀ c ∈ readChunks payload, c ≠ [] ∧ c.length ≤ transferBufferSize :=
  ⟨readChunks_flatten payload, readChunks_chunk_bound payload⟩

/-- C3 witness: the relay theorem applied to the concrete payload
`[1, 2, 3]`, whose single delivered chunk is the payload itself. -/
theorem relay_chunks_preserve_stream_witness :
    writeAll (readChunks [1, 2, 3]) = [1, 2, 3] ∧
    (([1, 2, 3] : List UInt8) ≠ [] ∧
      ([1, 2, 3] : List UInt8).length ≤ transferBufferSize) :=
  ⟨(relay_chunks_preserve_stream [1, 2, 3]).1,
   (relay_chunks_preserve_stream [1, 2, 3]).2 [1, 2, 3]
     (by rw [readChunks_small 1 [2, 3] (by decide)]; exact List.mem_singleton.mpr rfl)⟩

/-! ### Backoff lemmas -/

theorem increaseDelay_eq_min (d m : Nat) : increaseDelay d m = min (d * 2) m := by
  show (if d * 2 > m then m else d * 2) = min (d * 2) m
  split <;> omega

theorem delayTrace_bounds (outs : List Bool) :
    retryDelayFloor ≤ delayTrace outs ∧ delayTrace outs ≤ maxRetryDelay := by
  induction outs with
  | nil => exact ⟨Nat.le_refl _, by decide⟩
  | cons b rest ih =>
    cases b with
    | true =>
      refine ⟨Nat.le_refl _, ?_⟩
      show retryDelayFloor ≤ maxRetryDelay
      decide
    | false =>
      obtain ⟨h1, h2⟩ := ih
      have e : delayTrace (false :: rest) =
          increaseDelay (delayTrace rest) maxRetryDelay := rfl
      rw [e, increaseDelay_eq_min]
      unfold retryDelayFloor maxRetryDelay at *
      omega

/-! ### Claim theorem: connect backoff (C7) -/

/-- C7: the connect-phase retry delay starts at the floor of 2 seconds,
stays between the floor and the 60-second ceiling after any history of
outcomes, doubles (clamped at the ceiling) after each failed attempt,
is non-decreasing across failures, and resets to the floor on success. -/
theorem backoff_properties :
    delayTrace [] = retryDelayFloor ∧
    (∀ outs : List Bool,
      retryDelayFloor ≤ delayTrace outs ∧ delayTrace outs ≤ maxRetryDelay) ∧
    (∀ outs : List Bool,
      delayTrace (false :: outs) = min (delayTrace outs * 2) maxRetryDelay) ∧
    (∀ outs : List Bool, delayTrace outs ≤ delayTrace (false :: outs)) ∧
    (∀ outs : List Bool, delayTrace (true :: outs) = retryDelayFloor) := by
  refine ⟨rfl, delayTrace_bounds, fun outs => ?_, fun outs => ?_, fun outs => rfl⟩
  · have e : delayTrace (false :: outs) =
        increaseDelay (delayTrace outs) maxRetryDelay := rfl
    rw [e, increaseDelay_eq_min]
  · have e : delayTrace (false :: outs) =
        increaseDelay (delayTrace outs) maxRetryDelay := rfl
    have h := delayTrace_bounds outs
    rw [e, increaseDelay_eq_min]
    unfold retryDelayFloor maxRetryDelay at *
    omega

/-! ### Registry lemmas -/

theorem lookup_cons_self (s t : String) (l : Registry) :
    ((s, t) :: l).lookup s = some t := by
  rw [List.lookup_cons, beq_self_eq_true]

theorem lookup_cons_ne {s k : String} (t : String) (l : Registry) (h : s ≠ k) :
    ((k, t) :: l).lookup s = l.lookup s := by
  rw [List.lookup_cons, beq_eq_false_iff_ne.mpr h]

theorem lookup_eq_none_iff (s : String) (l : Registry) :
    l.lookup s = none ↔ ∀ p ∈ l, p.1 ≠ s := by
  induction l with
  | nil => simp
  | cons hd tl ih =>
    obtain ⟨k, t⟩ := hd
    by_cases h : s = k
    · subst h
      rw [lookup_cons_self]
      constructor
      · intro hco
        exact absurd hco (Option.some_ne_none t)
      · intro hall
        exact absurd rfl (hall (s, t) (List.mem_cons_self _ _))
    · rw [lookup_cons_ne t tl h, ih]
      constructor
      · intro hall p hp
        rcases List.mem_cons.mp hp with rfl | hp'
        · exact fun he => h he.symm
        · exact hall p hp'
      · intro hall p hp
        exact hall p (List.mem_cons_of_mem _ hp)

theorem mem_of_lookup_eq_some {s t : String} {l : Registry}
    (h : l.lookup s = some t) : (s, t) ∈ l := by
  induction l with
  | nil => simp at h
  | cons hd tl ih =>
    obtain ⟨k, b⟩ := hd
    by_cases hk : s = k
    · subst hk
      rw [lookup_cons_self] at h
      obtain rfl := Option.some.inj h
      exact List.mem_cons_self _ _
    · rw [lookup_cons_ne b tl hk] at h
      exact List.mem_cons_of_mem _ (ih h)

theorem handleRegister_mem {e : String × String} {body : Option RegistrationRequest}
    {st : Registry} (h : e ∈ (handleRegister body st).2.2) :
    e ∈ st ∨ ∃ req, body = some req ∧ req.api_key = apiSecret ∧
      isValidSubdomain req.subdomain = true ∧ st.lookup req.subdomain = none ∧
      e = (req.subdomain, "http://localhost:" ++ req.target_port) := by
  match body with
  | none => exact Or.inl h
  | some req =>
    simp only [handleRegister] at h
    split at h
    · exact Or.inl h
    · split at h
      · exact Or.inl h
      · split at h
        · exact Or.inl h
        · rcases List.mem_cons.mp h with rfl | h'
          · rename_i hkey hvalid habsent
            refine Or.inr ⟨req, rfl, not_not.mp hkey, ?_, ?_, rfl⟩
            · cases hb : isValidSubdomain req.subdomain with
              | false => exact absurd hb hvalid
              | true => rfl
            · exact Option.not_isSome_iff_eq_none.mp habsent
          · exact Or.inl h'

theorem handleRegister_nodup {body : Option RegistrationRequest} {st : Registry}
    (h : (st.map Prod.fst).Nodup) :
    (((handleRegister body st).2.2).map Prod.fst).Nodup := by
  match body with
  | none => exact h
  | some req =>
    simp only [handleRegister]
    split
    · exact h
    · split
      · exact h
      · split
        · exact h
        · rename_i hkey hvalid habsent
          rw [List.map_cons, List.nodup_cons]
          refine ⟨?_, h⟩
          intro hmem
          obtain ⟨p, hp, hfst⟩ := List.mem_map.mp hmem
          have hnone : st.lookup req.subdomain = none :=
            Option.not_isSome_iff_eq_none.mp habsent
          exact (lookup_eq_none_iff _ _).mp hnone p hp hfst

theorem runRegisters_mem {e : String × String} :
    ∀ (calls : List (Option RegistrationRequest)) (st : Registry),
      e ∈ runRegisters calls st →
      e ∈ st ∨ ∃ req, some req ∈ calls ∧ req.api_key = apiSecret ∧
        isValidSubdomain req.subdomain = true ∧
        e = (req.subdomain, "http://localhost:" ++ req.target_port)
  | [], _, h => Or.inl h
  | c :: cs, st, h => by
    rcases runRegisters_mem cs _ h with h' | ⟨req, hm, hk, hv, he⟩
    · rcases handleRegister_mem h' with h'' | ⟨req, hb, hk, hv, _, he⟩
      · exact Or.inl h''
      · exact Or.inr ⟨req, hb ▸ List.mem_cons_self _ _, hk, hv, he⟩
    · exact Or.inr ⟨req, List.mem_cons_of_mem _ hm, hk, hv, he⟩

theorem runRegisters_nodup :
    ∀ (calls : List (Option RegistrationRequest)) (st : Registry),
      (st.map Prod.fst).Nodup → ((runRegisters calls st).map Prod.fst).Nodup
  | [], _, h => h
  | _ :: cs, _, h => runRegisters_nodup cs _ (handleRegister_nodup h)

theorem reachable_keys_valid {st : Registry} (hr : ReachableReg st) :
    ∀ p ∈ st, isValidSubdomain p.1 = true := by
  obtain ⟨calls, rfl⟩ := hr
  intro p hp
  rcases runRegisters_mem calls initialTunnels hp with h | ⟨req, _, _, hv, rfl⟩
  · rcases List.mem_singleton.mp h with rfl
    decide
  · exact hv

/-! ### Dispatcher key lemmas -/

theorem splitOnChar_ne_nil (sep : Char) (l : List Char) : splitOnChar sep l ≠ [] := by
  match l with
  | [] => simp [splitOnChar]
  | c :: cs =>
    unfold splitOnChar
    split
    · simp
    · split
      · simp
      · simp

theorem splitOnChar_head (sep : Char) (l : List Char) :
    (splitOnChar sep l).headD [] = l.takeWhile (fun c => c != sep) := by
  induction l with
  | nil => rfl
  | cons c cs ih =>
    by_cases h : c = sep
    · subst h
      simp [splitOnChar]
    · rw [List.takeWhile_cons_of_pos (by simp [h])]
      unfold splitOnChar
      rw [if_neg h]
      cases hsp : splitOnChar sep cs with
      | nil => exact absurd hsp (splitOnChar_ne_nil sep cs)
      | cons hd tl =>
        rw [hsp] at ih
        simpa using ih

theorem hostKey_data (host : String) :
    (hostKey host).data = host.data.takeWhile (fun c => c != '.') := by
  unfold hostKey
  rw [splitOnChar_head]

theorem takeWhile_of_all {p : Char → Bool} {l : List Char}
    (hall : ∀ x ∈ l, p x = true) : l.takeWhile p = l := by
  induction l with
  | nil => rfl
  | cons a l ih =>
    rw [List.takeWhile_cons_of_pos (hall a (List.mem_cons_self _ _))]
    rw [ih fun x hx => hall x (List.mem_cons_of_mem _ hx)]

theorem takeWhile_append_stop {p : Char → Bool} {l1 : List Char} (c : Char)
    (l2 : List Char) (hall : ∀ x ∈ l1, p x = true) (hc : p c = false) :
    (l1 ++ c :: l2).takeWhile p = l1 := by
  induction l1 with
  | nil => simp [List.takeWhile_cons, hc]
  | cons a l ih =>
    rw [List.cons_append,
        List.takeWhile_cons_of_pos (hall a (List.mem_cons_self _ _)),
        ih fun x hx => hall x (List.mem_cons_of_mem _ hx)]

theorem hostKey_no_dot (host : String) (h : ∀ c ∈ host.data, (c != '.') = true) :
    hostKey host = host := by
  apply String.ext
  rw [hostKey_data]
  exact takeWhile_of_all h

theorem valid_subdomain_chars {s : String} (hv : isValidSubdomain s = true) :
    ∀ c ∈ s.data, ('a' ≤ c ∧ c ≤ 'z') ∨ ('0' ≤ c ∧ c ≤ '9') ∨ c = '-' :=
  ((isValidSubdomain_iff s).mp hv).2

theorem valid_no_dot {s : String} (hv : isValidSubdomain s = true) :
    ∀ c ∈ s.data, (c != '.') = true := by
  intro c hc
  rw [bne_iff_ne]
  intro he
  subst he
  rcases valid_subdomain_chars hv '.' hc with ⟨h1, _⟩ | ⟨h1, _⟩ | h1
  · exact absurd h1 (by decide)
  · exact absurd h1 (by decide)
  · exact absurd h1 (by decide)

theorem hostKey_of_valid_subdomain {s : String} (rest : String)
    (hv : isValidSubdomain s = true) :
    hostKey (s ++ "." ++ rest) = s := by
  apply String.ext
  rw [hostKey_data]
  have hdata : (s ++ "." ++ rest).data = s.data ++ '.' :: rest.data := by
    rw [String.data_append, String.data_append, List.append_assoc,
        show (".").data = ['.'] from rfl, List.singleton_append]
  rw [hdata]
  exact takeWhile_append_stop '.' rest.data (valid_no_dot hv) (by decide)

/-! ### Claim theorem: successful registration (C1) -/

/-- C1: for every valid subdomain not present in the registry, a
POST /register with the correct credential returns 201 Created with the
body "Registered Successfully", and an immediately following lookup —
both the raw registry lookup used by the handshake and the dispatcher's
Host-based lookup — returns the registered target
`http://localhost:<target_port>`. -/
theorem register_success_then_lookup (s p : String) (st : Registry)
    (hv : isValidSubdomain s = true) (habs : st.lookup s = none) :
    (handleRegister (some ⟨s, p, apiSecret⟩) st).1 = 201 ∧
    (handleRegister (some ⟨s, p, apiSecret⟩) st).2.1 =
      some "Registered Successfully" ∧
    ((handleRegister (some ⟨s, p, apiSecret⟩) st).2.2).lookup s =
      some ("http://localhost:" ++ p) ∧
    handleHTTP (s ++ "." ++ "exposelocal.dev")
        (handleRegister (some ⟨s, p, apiSecret⟩) st).2.2 =
      DispatchResult.proxyTo ("http://localhost:" ++ p) := by
  have hred : handleRegister (some ⟨s, p, apiSecret⟩) st =
      (201, some "Registered Successfully",
        (s, "http://localhost:" ++ p) :: st) := by
    simp only [handleRegister]
    rw [if_neg (by simp), if_neg (by simp [hv]), if_neg (by simp [habs])]
  rw [hred]
  refine ⟨rfl, rfl, lookup_cons_self _ _ _, ?_⟩
  unfold handleHTTP
  rw [hostKey_of_valid_subdomain "exposelocal.dev" hv, lookup_cons_self]

/-- C1 witness: registering "demo" on port 3000 against the startup
registry succeeds and is immediately visible to lookups. -/
theorem register_success_then_lookup_witness :
    (handleRegister (some ⟨"demo", "3000", apiSecret⟩) initialTunnels).1 = 201 ∧
    ((handleRegister (some ⟨"demo", "3000", apiSecret⟩) initialTunnels).2.2).lookup
      "demo" = some ("http://localhost:" ++ "3000") :=
  ⟨(register_success_then_lookup "demo" "3000" initialTunnels
      (by decide) (by decide)).1,
   (register_success_then_lookup "demo" "3000" initialTunnels
      (by decide) (by decide)).2.2.1⟩

/-! ### Claim theorem: registration conflict (C2) -/

/-- C2: a second register for an already-present subdomain, with any
target port, fails with 409 Conflict and the body "Subdomain already
registered", and leaves the registry — in particular the original
mapping of that subdomain — unchanged. -/
theorem second_register_conflict (s t p2 : String) (st : Registry)
    (hreach : ReachableReg st) (hlk : st.lookup s = some t) :
    handleRegister (some ⟨s, p2, apiSecret⟩) st =
      (409, some "Subdomain already registered", st) ∧
    ((handleRegister (some ⟨s, p2, apiSecret⟩) st).2.2).lookup s = some t := by
  have hv : isValidSubdomain s = true :=
    reachable_keys_valid hreach (s, t) (mem_of_lookup_eq_some hlk)
  have hred : handleRegister (some ⟨s, p2, apiSecret⟩) st =
      (409, some "Subdomain already registered", st) := by
    simp only [handleRegister]
    rw [if_neg (by simp), if_neg (by simp [hv]), if_pos (by simp [hlk])]
  exact ⟨hred, by rw [hred]; exact hlk⟩

/-- C2 witness: re-registering the pre-seeded "test" subdomain conflicts
and the registry is unchanged. -/
theorem second_register_conflict_witness :
    handleRegister (some ⟨"test", "9999", apiSecret⟩) initialTunnels =
      (409, some "Subdomain already registered", initialTunnels) :=
  (second_register_conflict "test" "http://localhost:80" "9999" initialTunnels
    ⟨[], rfl⟩ (by decide)).1

/-! ### Claim theorems: registry invariant (C6) -/

/-- C6 counterexample: the "test" entry pre-seeded by `main` is present
in a reachable registry state whose history contains no register
exchange at all, so not every registry entry was created by a
RegistrationProtocol exchange. -/
theorem registry_preseeded_counterexample :
    ("test", "http://localhost:80") ∈
      runRegisters ([] : List (Option RegistrationRequest)) initialTunnels ∧
    ¬ ∃ req : RegistrationRequest,
        some req ∈ ([] : List (Option RegistrationRequest)) := by
  constructor
  · exact List.mem_singleton.mpr rfl
  · rintro ⟨req, hm⟩
    simp at hm

/-- C6 (amended): every reachable registry state has at most one entry
per subdomain, and every entry other than the default "test" entry
pre-seeded at startup was inserted by a register exchange that passed
the credential and subdomain validation. -/
theorem registry_invariant (calls : List (Option RegistrationRequest)) :
    ((runRegisters calls initialTunnels).map Prod.fst).Nodup ∧
    ∀ e ∈ runRegisters calls initialTunnels,
      e = ("test", "http://localhost:80") ∨
      ∃ req : RegistrationRequest, some req ∈ calls ∧
        req.api_key = apiSecret ∧ isValidSubdomain req.subdomain = true ∧
        e = (req.subdomain, "http://localhost:" ++ req.target_port) := by
  constructor
  · exact runRegisters_nodup calls initialTunnels (by decide)
  · intro e he
    rcases runRegisters_mem calls initialTunnels he with h | ⟨req, hm, hk, hv, he'⟩
    · exact Or.inl (List.mem_singleton.mp h)
    · exact Or.inr ⟨req, hm, hk, hv, he'⟩

/-- C6 witness: the invariant applied to the state reached by one
successful registration of "demo". -/
theorem registry_invariant_witness :
    ("demo", "http://localhost:" ++ "3000") = ("test", "http://localhost:80") ∨
    ∃ req : RegistrationRequest,
      some req ∈ [some (⟨"demo", "3000", "test123"⟩ : RegistrationRequest)] ∧
      req.api_key = apiSecret ∧ isValidSubdomain req.subdomain = true ∧
      ("demo", "http://localhost:" ++ "3000") =
        (req.subdomain, "http://localhost:" ++ req.target_port) :=
  (registry_invariant [some ⟨"demo", "3000", "test123"⟩]).2
    ("demo", "http://localhost:" ++ "3000") (by decide)

/-! ### Claim theorem: dispatcher routing key (C10) -/

/-- C10: the dispatcher's routing key is the substring of the Host
header before the first '.'; a Host containing no '.' is used whole
(including any ':port' suffix); the empty Host gives the empty key; and
the Host "localhost:8080" can never match an entry of a reachable
registry, so it always yields 404. -/
theorem dispatch_key_characterization (host : String) (st : Registry) :
    (hostKey host).data = host.data.takeWhile (fun c => c != '.') ∧
    ((∀ c ∈ host.data, (c != '.') = true) → hostKey host = host) ∧
    hostKey "" = "" ∧
    (ReachableReg st →
      handleHTTP "localhost:8080" st = DispatchResult.notFound) := by
  refine ⟨hostKey_data host, hostKey_no_dot host, rfl, ?_⟩
  intro hr
  unfold handleHTTP
  have hkey : hostKey "localhost:8080" = "localhost:8080" :=
    hostKey_no_dot _ (by decide)
  rw [hkey]
  have hnone : st.lookup "localhost:8080" = none := by
    rw [lookup_eq_none_iff]
    intro p hp he
    have hv := reachable_keys_valid hr p hp
    rw [he] at hv
    exact absurd hv (by decide)
  rw [hnone]

/-- C10 witness: dispatching Host "localhost:8080" against the startup
registry yields 404. -/
theorem dispatch_key_characterization_witness :
    handleHTTP "localhost:8080" initialTunnels = DispatchResult.notFound :=
  (dispatch_key_characterization "localhost:8080" initialTunnels).2.2.2 ⟨[], rfl⟩

/-! ### Claim theorems: handshake validation order (C4) -/

/-- Claim C4 counterexample: with the correct credential but an
unregistered subdomain, the protocol upgrade is performed even though
the registry validation fails — the 404 is issued only after the
upgrade — so the upgrade is not performed only when both validations
have succeeded. -/
theorem handshake_upgrade_before_registry_check :
    initialTunnels.lookup "nosuch" = none ∧
    handleTunnel "test123" "nosuch" initialTunnels true true =
      [TunnelEvent.upgrade, TunnelEvent.errorResp 404 "Tunnel not registered"] := by
  constructor
  · decide
  · rfl

/-- Claim C4 (amended): the handshake validates the credential before
the upgrade — a mismatch yields 401 and no upgrade — but the
registry-existence check happens only after the upgrade: with a correct
credential the upgrade is performed regardless of the subdomain, and a
missing registry entry then yields the 404 after the upgrade. -/
theorem handshake_validation_order (apiKey subdomain : String) (st : Registry)
    (upgradeOk dialOk : Bool) :
    (apiKey ≠ apiSecret →
      handleTunnel apiKey subdomain st upgradeOk dialOk =
        [TunnelEvent.errorResp 401 "Unauthorized"]) ∧
    (TunnelEvent.upgrade ∈ handleTunnel apiKey subdomain st upgradeOk dialOk →
      apiKey = apiSecret ∧ upgradeOk = true) ∧
    (apiKey = apiSecret → upgradeOk = true → st.lookup subdomain = none →
      handleTunnel apiKey subdomain st upgradeOk dialOk =
        [TunnelEvent.upgrade, TunnelEvent.errorResp 404 "Tunnel not registered"]) := by
  refine ⟨?_, ?_, ?_⟩
  · intro h
    unfold handleTunnel
    rw [if_pos h]
  · intro hmem
    unfold handleTunnel at hmem
    by_cases h1 : apiKey ≠ apiSecret
    · rw [if_pos h1] at hmem
      simp at hmem
    · cases upgradeOk with
      | false =>
        rw [if_neg h1, if_pos rfl] at hmem
        simp at hmem
      | true =>
        exact ⟨not_not.mp h1, rfl⟩
  · intro h1 h2 h3
    subst h1
    subst h2
    unfold handleTunnel
    rw [if_neg (by simp), if_neg (by simp), h3]

/-- Claim C4 witness: a wrong credential is rejected with 401 and no
upgrade happens. -/
theorem handshake_validation_order_witness :
    handleTunnel "wrong" "test" initialTunnels true true =
      [TunnelEvent.errorResp 401 "Unauthorized"] :=
  (handshake_validation_order "wrong" "test" initialTunnels true true).1 (by decide)

/-! ### Claim theorems: broker dials the target (C5) -/

/-- Claim C5 counterexample: an accepted handshake for the
pre-registered subdomain "test" dials the registered target endpoint
localhost:80 directly (`net.Dial("tcp", target.Host)` in
`handleTunnel`), so the broker does open a TCP connection to the
TunnelEntry's target endpoint during the handshake. -/
theorem handshake_dials_target_counterexample :
    TunnelEvent.dial "localhost:80" ∈
      handleTunnel "test123" "test" initialTunnels true true := by
  decide

/-- Claim C5 (amended): for every accepted control-channel handshake
(correct credential, successful upgrade, registered subdomain), the
broker dials the TunnelEntry's target endpoint directly over TCP —
whether or not the dial succeeds — rather than reaching the target only
indirectly via the control channel. -/
theorem handshake_dials_target (subdomain : String) (st : Registry)
    (dialOk : Bool) (t : String) (hlk : st.lookup subdomain = some t) :
    TunnelEvent.dial (urlHost t) ∈
      handleTunnel apiSecret subdomain st true dialOk := by
  unfold handleTunnel
  rw [if_neg (by simp), if_neg (by simp), hlk]
  cases dialOk with
  | false => simp
  | true => simp

/-- Claim C5 witness: the dial event for the pre-registered "test"
entry's target. -/
theorem handshake_dials_target_witness :
    TunnelEvent.dial (urlHost "http://localhost:80") ∈
      handleTunnel apiSecret "test" initialTunnels true true :=
  handshake_dials_target "test" initialTunnels true "http://localhost:80" (by decide)

/-! ### Claim theorems: agent fatal errors (C8) -/

/-- Claim C8 counterexample: a registration response of 401 Unauthorized
— an error other than a local-listener bind failure — terminates the
agent process (`log.Fatalf("Registration failed: ...")`), so listener
bind failure is not the only process-fatal error. -/
theorem agent_fatal_on_rejected_registration :
    registrationAttempt true true 401 = AgentStep.exitProcess := by
  rfl

/-- Claim C8 (amended): the agent exits only on a local-listener bind
failure, on a registration response that is neither 201 Created nor 409
Conflict, or on a JSON-encoding failure of the registration body;
registration transport failures are retried after a fixed sleep,
failed connect attempts are retried with backoff, and relay I/O errors
stop the relay direction without exiting the process. -/
theorem agent_exit_characterization
    (marshalOk transportOk dialOk bindOk readOk writeOk : Bool)
    (statusCode : Nat) :
    (registrationAttempt marshalOk transportOk statusCode = AgentStep.exitProcess ↔
      (marshalOk = false ∨
        (transportOk = true ∧ statusCode ≠ 201 ∧ statusCode ≠ 409))) ∧
    (marshalOk = true →
      registrationAttempt marshalOk false statusCode = AgentStep.retryAfterSleep) ∧
    (startLocalListener bindOk = ListenStep.exitProcess ↔ bindOk = false) ∧
    connectAttempt dialOk ≠ ConnectStep.exitProcess ∧
    forwardStep readOk writeOk ≠ RelayStep.exitProcess := by
  refine ⟨?_, ?_, ?_, ?_, ?_⟩
  · unfold registrationAttempt
    cases marshalOk <;> cases transportOk <;>
      by_cases h1 : statusCode = 201 <;> by_cases h2 : statusCode = 409 <;>
        simp_all
  · intro h
    subst h
    rfl
  · cases bindOk <;> simp [startLocalListener]
  · cases dialOk <;> simp [connectAttempt]
  · cases readOk <;> cases writeOk <;> simp [forwardStep]

/-- Claim C8 witness: a registration transport failure only sleeps and
retries, and a bind failure is fatal. -/
theorem agent_exit_characterization_witness :
    registrationAttempt true false 400 = AgentStep.retryAfterSleep ∧
    (startLocalListener false = ListenStep.exitProcess ↔ false = false) :=
  ⟨(agent_exit_characterization true false true true true true 400).2.1 rfl,
   (agent_exit_characterization true false true false true true 400).2.2.1⟩
